import Mathlib

/-!
Verification of the meeting-pattern parser and occurrence expander of
the workday course-schedule converter (src/app.py).

Strings are embedded as lists of characters (type Str below) so that all
operations are structurally recursive and concrete runs reduce inside the
kernel.  The Python string methods used by the source (split with a
separator, strip, replace, substring membership, f-string concatenation)
are modelled by the Str functions below with the same semantics.

Calendar dates are embedded as proleptic-Gregorian day ordinals (days
since 0000-03-01); Python date objects compare and step by days exactly
as their ordinals do, and date.weekday() (Monday = 0) is the ordinal
plus 2 modulo 7.
-/

/-- Character-list strings, the carrier of the embedding. -/
abbrev Str := List Char

/-- Whitespace test matching the character class stripped by the Python
str.strip() and matched by a literal blank in strptime formats, for the
ASCII inputs this format carries. -/
def isSpace (c : Char) : Bool :=
  c = ' ' || c = '\t' || c = '\n' || c = '\r' || c = '\x0b' || c = '\x0c'

/-- Python str.strip(): drop whitespace from both ends. -/
def stripWs (s : Str) : Str :=
  ((s.dropWhile isSpace).reverse.dropWhile isSpace).reverse

/-- Python str.strip(", "): drop comma and blank characters from both ends,
as used on the composed location string. -/
def stripCommaSpace (s : Str) : Str :=
  let p : Char → Bool := fun c => c = ',' || c = ' '
  ((s.dropWhile p).reverse.dropWhile p).reverse

/-- First occurrence of a non-empty separator: returns the part before it
and the part after it, or none when the separator does not occur. -/
def splitFirst (sep : Str) : Str → Option (Str × Str)
  | [] => none
  | c :: cs =>
    if sep.isPrefixOf (c :: cs) then some ([], (c :: cs).drop sep.length)
    else
      match splitFirst sep cs with
      | some (pre, post) => some (c :: pre, post)
      | none => none

/-- Fuelled worker for splitOnL; the fuel is the length of the input,
which bounds the number of separator occurrences. -/
def splitOnAuxL (sep : Str) : Nat → Str → List Str
  | 0, s => [s]
  | n + 1, s =>
    match splitFirst sep s with
    | none => [s]
    | some (pre, post) => pre :: splitOnAuxL sep n post

/-- Python str.split(sep) for a non-empty separator: non-overlapping
occurrences, scanned left to right. -/
def splitOnL (sep s : Str) : List Str :=
  splitOnAuxL sep s.length s

/-- Fuelled worker for replaceL. -/
def replaceAuxL (pat rep : Str) : Nat → Str → Str
  | 0, s => s
  | n + 1, s =>
    match splitFirst pat s with
    | none => s
    | some (pre, post) => pre ++ rep ++ replaceAuxL pat rep n post

/-- Python str.replace(pat, rep) for a non-empty pattern: every
non-overlapping occurrence, scanned left to right, replacements not
rescanned. -/
def replaceL (pat rep s : Str) : Str :=
  replaceAuxL pat rep s.length s

/-- Python substring membership (pat in s) for a non-empty pattern. -/
def containsL (s pat : Str) : Bool :=
  (splitFirst pat s).isSome

/-- Python sep.join(xs). -/
def intercalateL (sep : Str) (xs : List Str) : Str :=
  List.intercalate sep xs

/-- Gregorian leap-year test, as performed by the Python date type. -/
def isLeap (y : Nat) : Bool :=
  y % 4 = 0 && (y % 100 ≠ 0 || y % 400 = 0)

/-- Length of a month, as validated by the Python date constructor. -/
def daysInMonth (y m : Nat) : Nat :=
  if m = 2 then (if isLeap y then 29 else 28)
  else if m = 4 ∨ m = 6 ∨ m = 9 ∨ m = 11 then 30
  else 31

/-- Day ordinal of the proleptic-Gregorian date y-m-d (valid for y at
least 1), counting days from 0000-03-01.  Python date objects order and
step by days exactly as these ordinals do. -/
def toOrdinal (y m d : Nat) : Nat :=
  let y2 := if m ≤ 2 then y - 1 else y
  let era := y2 / 400
  let yoe := y2 - era * 400
  let mp := if 2 < m then m - 3 else m + 9
  let doy := (153 * mp + 2) / 5 + d - 1
  let doe := yoe * 365 + yoe / 4 - yoe / 100 + doy
  era * 146097 + doe

/-- Python date.weekday() of a day ordinal: Monday = 0 .. Sunday = 6. -/
def weekdayOf (d : Nat) : Nat :=
  (d + 2) % 7

/-- Numeric value of a digit string. -/
def digitsToNat (s : Str) : Nat :=
  s.foldl (fun a c => 10 * a + (c.toNat - 48)) 0

/-- Python datetime.strptime(s, "%Y-%m-%d").date(): four digit year of
at least 1, one or two digit month 1..12, one or two digit day valid for
the month, nothing else in the string.  Returns the day ordinal. -/
def parseDate (s : Str) : Option Nat :=
  match splitOnL ['-'] s with
  | [ys, ms, ds] =>
    if ys.length = 4 ∧ ys.all Char.isDigit ∧
       1 ≤ ms.length ∧ ms.length ≤ 2 ∧ ms.all Char.isDigit ∧
       1 ≤ ds.length ∧ ds.length ≤ 2 ∧ ds.all Char.isDigit then
      let y := digitsToNat ys
      let m := digitsToNat ms
      let d := digitsToNat ds
      if 1 ≤ y ∧ 1 ≤ m ∧ m ≤ 12 ∧ 1 ≤ d ∧ d ≤ daysInMonth y m then
        some (toOrdinal y m d)
      else none
    else none
  | _ => none

/-- Hour field of strptime %I: one or two digits with value 1..12,
trying the two-digit readings first as the strptime regex does. -/
def parseHourTok : Str → Option (Nat × Str)
  | c1 :: c2 :: rest =>
    if c1 = '1' ∧ '0' ≤ c2 ∧ c2 ≤ '2' then some (10 + (c2.toNat - 48), rest)
    else if c1 = '0' ∧ '1' ≤ c2 ∧ c2 ≤ '9' then some (c2.toNat - 48, rest)
    else if '1' ≤ c1 ∧ c1 ≤ '9' then some (c1.toNat - 48, c2 :: rest)
    else none
  | [c1] => if '1' ≤ c1 ∧ c1 ≤ '9' then some (c1.toNat - 48, []) else none
  | [] => none

/-- Minute field of strptime %M: two digits 00..59, or a single digit. -/
def parseMinTok : Str → Option (Nat × Str)
  | c1 :: c2 :: rest =>
    if '0' ≤ c1 ∧ c1 ≤ '5' ∧ c2.isDigit then
      some (10 * (c1.toNat - 48) + (c2.toNat - 48), rest)
    else if c1.isDigit then some (c1.toNat - 48, c2 :: rest)
    else none
  | [c1] => if c1.isDigit then some (c1.toNat - 48, []) else none
  | [] => none

/-- A literal blank in a strptime format: one or more whitespace
characters. -/
def parseWsTok : Str → Option Str
  | c :: rest => if isSpace c then some (rest.dropWhile isSpace) else none
  | [] => none

/-- Period field of strptime %p: the markers am and pm, matched without
case sensitivity; returns true for pm. -/
def parseAmPmTok : Str → Option (Bool × Str)
  | c1 :: c2 :: rest =>
    if (c1 = 'a' ∨ c1 = 'A') ∧ (c2 = 'm' ∨ c2 = 'M') then some (false, rest)
    else if (c1 = 'p' ∨ c1 = 'P') ∧ (c2 = 'm' ∨ c2 = 'M') then some (true, rest)
    else none
  | _ => none

/-- Python datetime.strptime(s, "%I:%M %p").time(): a 12-hour clock time
converted to (hour24, minute); the whole string must be consumed. -/
def parseTime12 (s : Str) : Option (Nat × Nat) :=
  match parseHourTok s with
  | none => none
  | some (h, r1) =>
    match r1 with
    | ':' :: r2 =>
      match parseMinTok r2 with
      | none => none
      | some (mi, r3) =>
        match parseWsTok r3 with
        | none => none
        | some r4 =>
          match parseAmPmTok r4 with
          | some (pm, []) =>
            some ((if pm then (if h = 12 then 12 else h + 12)
                   else (if h = 12 then 0 else h)), mi)
          | _ => none
    | _ => none

/-- Source def normalize_time_string (src/app.py lines 60..63): replace
the textual period markers by the canonical AM and PM markers, in the
exact chained order of the source. -/
def normalize_time_string (s : Str) : Str :=
  replaceL "p.m".toList "PM".toList
    (replaceL "a.m".toList "AM".toList
      (replaceL "p.m.".toList "PM".toList
        (replaceL "a.m.".toList "AM".toList s)))

/-- One decoded meeting-pattern block (the dict appended at src/app.py
lines 88..95): day-ordinal date range, (hour, minute) time range,
weekday indices, composed location string. -/
structure Schedule where
  start_date : Nat
  end_date : Nat
  start_time : Nat × Nat
  end_time : Nat × Nat
  weekdays : List Nat
  location : Str
deriving DecidableEq

/-- The seven weekday abbreviations with their indices, in the fixed
Mon..Sun order the source scans them (src/app.py lines 75..82). -/
def day_names : List (Str × Nat) :=
  [("Mon".toList, 0), ("Tue".toList, 1), ("Wed".toList, 2), ("Thu".toList, 3),
   ("Fri".toList, 4), ("Sat".toList, 5), ("Sun".toList, 6)]

/-- Weekday scan of src/app.py lines 79..82: for each abbreviation in
Mon..Sun order, append its index when the abbreviation occurs as a
substring of the days field. -/
def weekdaysOf (days : Str) : List Nat :=
  (day_names.filter (fun p => containsL days p.1)).map (fun p => p.2)

/-- Date-range step of src/app.py lines 46..51: split on the dash
separator into exactly two tokens (the tuple unpacking fails otherwise)
and parse each as an ISO date. -/
def parseDateRange (s : Str) : Option (Nat × Nat) :=
  match splitOnL " - ".toList s with
  | [a, b] =>
    match parseDate a, parseDate b with
    | some d1, some d2 => some (d1, d2)
    | _, _ => none
  | _ => none

/-- Time-range step of src/app.py lines 54..70: split on the dash
separator, take the first two tokens (an index error past the end fails
the block), strip each, normalize, parse as 12-hour times. -/
def parseTimeRange (s : Str) : Option ((Nat × Nat) × (Nat × Nat)) :=
  match splitOnL " - ".toList s with
  | t0 :: t1 :: _ =>
    match parseTime12 (normalize_time_string (stripWs t0)),
          parseTime12 (normalize_time_string (stripWs t1)) with
    | some a, some b => some (a, b)
    | _, _ => none
  | _ => none

/-- Fields of one block: strip the block, split on the field separator
(src/app.py line 35). -/
def fieldsOf (pattern : Str) : List Str :=
  splitOnL " | ".toList (stripWs pattern)

/-- Body of the per-block loop of parse_meeting_pattern (src/app.py
lines 29..95): a stripped non-empty block with at least six fields,
whose date range and time range both parse and whose days field holds at
least one recognized weekday abbreviation, yields one Schedule; any
failure yields nothing. -/
def parse_block (pattern : Str) : List Schedule :=
  if stripWs pattern = [] then []
  else if 6 ≤ (fieldsOf pattern).length then
    match parseDateRange (stripWs ((fieldsOf pattern).getD 0 [])) with
    | none => []
    | some dr =>
      match parseTimeRange (stripWs ((fieldsOf pattern).getD 2 [])) with
      | none => []
      | some tr =>
        if weekdaysOf (stripWs ((fieldsOf pattern).getD 1 [])) = [] then []
        else
          [{ start_date := dr.1
             end_date := dr.2
             start_time := tr.1
             end_time := tr.2
             weekdays := weekdaysOf (stripWs ((fieldsOf pattern).getD 1 []))
             location := stripCommaSpace
               (stripWs ((fieldsOf pattern).getD 4 []) ++ ", ".toList ++
                intercalateL " | ".toList ((fieldsOf pattern).drop 5) ++
                ", ".toList ++ stripWs ((fieldsOf pattern).getD 3 [])) }]
  else []

/-- Source def parse_meeting_pattern (src/app.py lines 20..97).  The
input is an Option: none models the absent or not-a-number cell caught
by the pd.isna guard, some models a string value; the empty string is
falsy and also returns no schedules.  The text splits on a double line
break into blocks and each block contributes its parse_block result. -/
def parse_meeting_pattern (mp : Option Str) : List Schedule :=
  match mp with
  | none => []
  | some s => if s = [] then [] else (splitOnL "\n\n".toList s).flatMap parse_block

/-- One calendar event (the Event built at src/app.py lines 182..220).
Timestamps are wall-clock (day ordinal, hour, minute) triples: the
fixed-zone localization at lines 189..190 attaches the Vancouver zone
without changing the wall-clock fields, so date and time-of-day survive
it unchanged.  The per-occurrence uid and the generation stamp are
nondeterministic and carry no schedule data, so they are not modelled. -/
structure EventOccurrence where
  dtstart : Nat × Nat × Nat
  dtend : Nat × Nat × Nat
  summary : Str
  description : Option Str
  location : Str
  categories : List Str
deriving DecidableEq

/-- Description assembly of src/app.py lines 205..214: the non-blank
fields produce their labelled lines in the fixed order, joined with the
literal two-character backslash-n sequence; no parts, no field. -/
def mkDescription (sec ins fmt : Str) : Option Str :=
  let parts : List Str :=
    (if sec = [] then [] else ["Section: ".toList ++ sec]) ++
    (if ins = [] then [] else ["Instructor: ".toList ++ ins]) ++
    (if fmt = [] then [] else ["Format: ".toList ++ fmt])
  if parts = [] then none else some (intercalateL "\\n".toList parts)

/-- One event of the inner loop of create_ics_from_excel_df (src/app.py
lines 182..220) for occurrence date d of schedule sch. -/
def mkEvent (cl sec ins fmt : Str) (sch : Schedule) (d : Nat) : EventOccurrence :=
  { dtstart := (d, sch.start_time.1, sch.start_time.2)
    dtend := (d, sch.end_time.1, sch.end_time.2)
    summary := cl ++ (if fmt = [] then [] else " - ".toList ++ fmt)
    description := mkDescription sec ins fmt
    location := sch.location
    categories := ["EDUCATION".toList, "COURSE".toList] }

/-- Occurrence loop of src/app.py lines 178..226: walk every date from
start_date to end_date inclusive and emit one event for each date whose
weekday lies in the weekday list of the schedule. -/
def expand_schedule (cl sec ins fmt : Str) (sch : Schedule) : List EventOccurrence :=
  ((List.range (sch.end_date + 1 - sch.start_date)).map
      (fun i => sch.start_date + i)).filterMap
    (fun d => if weekdayOf d ∈ sch.weekdays then
                some (mkEvent cl sec ins fmt sch d)
              else none)

/-- One row of the course table, holding the stringified cell values of
the five named columns read at src/app.py lines 160..168 (absent cells
stringify to the text nan). -/
structure Row where
  course_listing : Str
  meeting_patterns : Str
  sectionVal : Str
  instructor : Str
  instructional_format : Str
deriving DecidableEq

/-- Per-row body of create_ics_from_excel_df (src/app.py lines
159..226): strip the fields, skip the row when the course listing or
the meeting patterns are blank or the meeting patterns read nan, else
parse the patterns and expand every schedule. -/
def eventsForRow (row : Row) : List EventOccurrence :=
  if stripWs row.course_listing = [] ∨ stripWs row.meeting_patterns = [] ∨
     stripWs row.meeting_patterns = "nan".toList then []
  else
    (parse_meeting_pattern (some (stripWs row.meeting_patterns))).flatMap
      (expand_schedule (stripWs row.course_listing) (stripWs row.sectionVal)
        (stripWs row.instructor) (stripWs row.instructional_format))

/-- Source def create_ics_from_excel_df (src/app.py lines 138..228): an
empty table returns the distinct no-data signal (None), otherwise the
accumulated event list together with the events_created count. -/
def create_ics_from_excel_df (rows : List Row) : Option (List EventOccurrence × Nat) :=
  if rows = [] then none
  else
    let evs := rows.flatMap eventsForRow
    some (evs, evs.length)

/-! Helper lemmas about the parser and the expander. -/

/-- A block that strips to nothing is skipped. -/
theorem parse_block_eq_nil_blank (b : Str) (h : stripWs b = []) :
    parse_block b = [] := by
  unfold parse_block
  rw [if_pos h]

/-- A block with fewer than six fields is skipped. -/
theorem parse_block_eq_nil_short (b : Str) (h : (fieldsOf b).length < 6) :
    parse_block b = [] := by
  unfold parse_block
  split
  · rfl
  · rw [if_neg (by omega)]

/-- A block whose date range fails to parse is skipped. -/
theorem parse_block_eq_nil_dr (b : Str)
    (h : parseDateRange (stripWs ((fieldsOf b).getD 0 [])) = none) :
    parse_block b = [] := by
  unfold parse_block
  split
  · rfl
  · split
    · rw [h]
    · rfl

/-- A block whose time range fails to parse is skipped. -/
theorem parse_block_eq_nil_tr (b : Str)
    (h : parseTimeRange (stripWs ((fieldsOf b).getD 2 [])) = none) :
    parse_block b = [] := by
  unfold parse_block
  split
  · rfl
  · split
    · split
      · rfl
      · rw [h]
    · rfl

/-- A list of blocks that all parse to nothing contributes nothing. -/
theorem flatMap_parse_block_eq_nil (l : List Str)
    (h : ∀ b ∈ l, parse_block b = []) : l.flatMap parse_block = [] := by
  induction l with
  | nil => rfl
  | cons x xs ih =>
    rw [List.flatMap_cons, h x (by simp), ih (fun b hb => h b (by simp [hb]))]
    rfl

/-- Every event of expand_schedule comes from a date of the inclusive
range whose weekday is in the weekday list, via mkEvent. -/
theorem mem_expand_schedule (cl sec ins fmt : Str) (sch : Schedule)
    (ev : EventOccurrence) (h : ev ∈ expand_schedule cl sec ins fmt sch) :
    ∃ d, sch.start_date ≤ d ∧ d ≤ sch.end_date ∧
      weekdayOf d ∈ sch.weekdays ∧ ev = mkEvent cl sec ins fmt sch d := by
  unfold expand_schedule at h
  rw [List.mem_filterMap] at h
  obtain ⟨d, hd, hopt⟩ := h
  rw [List.mem_map] at hd
  obtain ⟨i, hi, rfl⟩ := hd
  rw [List.mem_range] at hi
  by_cases hw : weekdayOf (sch.start_date + i) ∈ sch.weekdays
  · rw [if_pos hw] at hopt
    injection hopt with h2
    subst h2
    exact ⟨sch.start_date + i, Nat.le_add_right _ _, by omega, hw, rfl⟩
  · rw [if_neg hw] at hopt
    simp at hopt

/-! Concrete inputs used by witnesses and counterexamples. -/

/-- The concrete scenario block of the spec (section 8, property 6). -/
def dmpBlock : Str :=
  "2025-11-17 - 2025-11-24 | Mon Wed | 9:30 a.m. - 11:00 a.m. | UBCV | Hugh Dempster Pavilion (DMP) | Floor: 1 | Room: 110".toList

/-- A row carrying the concrete scenario block with a non-blank course
listing. -/
def dmpRow : Row := ⟨"CPSC 110".toList, dmpBlock, [], [], []⟩

/-- The concrete scenario block with its date range reversed. -/
def reversedBlock : Str :=
  "2025-11-24 - 2025-11-17 | Mon Wed | 9:30 a.m. - 11:00 a.m. | UBCV | Hugh Dempster Pavilion (DMP) | Floor: 1 | Room: 110".toList

/-- A default schedule value, used only as the fallback of getD. -/
def schDefault : Schedule := ⟨0, 0, (0, 0), (0, 0), [], []⟩

/-- The schedule decoded from the concrete scenario block. -/
def dmpSchedule : Schedule :=
  ⟨toOrdinal 2025 11 17, toOrdinal 2025 11 24, (9, 30), (11, 0), [0, 2], []⟩

/-- C1 counterexample: the parser does not reject a block whose date
range has start after end; parsing the reversed concrete block emits a
Schedule, and not every emitted Schedule satisfies start_date less than
or equal to end_date. -/
theorem c1_reversed_range_not_rejected :
    ¬ ∀ s ∈ parse_meeting_pattern (some reversedBlock),
        s.start_date ≤ s.end_date := by
  decide

/-- C1 (amended): the parser does not check the order of the parsed
dates, so a block whose range has start after end still yields a
Schedule with start_date greater than end_date; however any such
Schedule expands to zero event occurrences, because the inclusive date
walk of the expander visits no date. -/
theorem c1_reversed_range_expands_to_nothing (cl sec ins fmt : Str)
    (sch : Schedule) (h : sch.end_date < sch.start_date) :
    expand_schedule cl sec ins fmt sch = [] := by
  unfold expand_schedule
  have h0 : sch.end_date + 1 - sch.start_date = 0 := by omega
  rw [h0]
  rfl

/-- C1 witness: the amended theorem at a concrete reversed schedule. -/
theorem c1_witness :
    (3 : Nat) < 5 ∧
      expand_schedule [] [] [] [] ⟨5, 3, (9, 0), (10, 0), [0], []⟩ = [] :=
  ⟨by decide, c1_reversed_range_expands_to_nothing [] [] [] []
    ⟨5, 3, (9, 0), (10, 0), [0], []⟩ (by decide)⟩

set_option maxRecDepth 100000 in
/-- C2 counterexample: expanding the concrete scenario block for a row
with a non-blank course listing does not yield 4 event occurrences. -/
theorem c2_concrete_count_not_four :
    ¬ (create_ics_from_excel_df [dmpRow]).map (fun p => p.2) = some 4 := by
  decide

set_option maxRecDepth 100000 in
/-- C2 (amended): expanding the concrete scenario block for a row with a
non-blank course listing yields exactly 3 event occurrences, on the
dates 2025-11-17 (Monday), 2025-11-19 (Wednesday) and 2025-11-24
(Monday); 2025-11-26 falls outside the inclusive end date. -/
theorem c2_concrete_count_three :
    (create_ics_from_excel_df [dmpRow]).map (fun p => p.2) = some 3 ∧
      (create_ics_from_excel_df [dmpRow]).map
          (fun p => p.1.map (fun e => e.dtstart.1)) =
        some [toOrdinal 2025 11 17, toOrdinal 2025 11 19, toOrdinal 2025 11 24] := by
  constructor
  · decide
  · decide

/-- C3: every event occurrence generated by the expander falls on a date
inside the inclusive date range of its originating schedule, and the
weekday index of that date is a member of the weekday list of that
schedule. -/
theorem c3_occurrence_in_range_and_weekday (cl sec ins fmt : Str)
    (sch : Schedule) (ev : EventOccurrence)
    (h : ev ∈ expand_schedule cl sec ins fmt sch) :
    sch.start_date ≤ ev.dtstart.1 ∧ ev.dtstart.1 ≤ sch.end_date ∧
      weekdayOf ev.dtstart.1 ∈ sch.weekdays := by
  obtain ⟨d, h1, h2, h3, rfl⟩ := mem_expand_schedule cl sec ins fmt sch ev h
  exact ⟨h1, h2, h3⟩

set_option maxRecDepth 100000 in
/-- C3 witness: the range and weekday bounds at a concrete occurrence of
the concrete scenario schedule. -/
theorem c3_witness :
    mkEvent [] [] [] [] dmpSchedule (toOrdinal 2025 11 19) ∈
        expand_schedule [] [] [] [] dmpSchedule ∧
      (dmpSchedule.start_date ≤
          (mkEvent [] [] [] [] dmpSchedule (toOrdinal 2025 11 19)).dtstart.1 ∧
        (mkEvent [] [] [] [] dmpSchedule (toOrdinal 2025 11 19)).dtstart.1 ≤
          dmpSchedule.end_date ∧
        weekdayOf (mkEvent [] [] [] [] dmpSchedule (toOrdinal 2025 11 19)).dtstart.1 ∈
          dmpSchedule.weekdays) :=
  ⟨by decide, c3_occurrence_in_range_and_weekday [] [] [] [] dmpSchedule
    (mkEvent [] [] [] [] dmpSchedule (toOrdinal 2025 11 19)) (by decide)⟩

/-- A row carrying the concrete scenario block together with a non-blank
section and instructor. -/
def secInsRow : Row :=
  ⟨"CPSC 110".toList, dmpBlock, "101".toList, "Smith".toList, []⟩

set_option maxRecDepth 100000 in
/-- C4 counterexample: for a row with non-blank section and instructor,
the generated description joins the labelled parts with the literal
two-character backslash-n sequence, which differs from joining them with
a newline character, so the description is not the newline-joined text
the claim states. -/
theorem c4_description_not_newline_joined :
    ((create_ics_from_excel_df [secInsRow]).map
        (fun p => p.1.map (fun e => e.description))).map (fun l => l.getD 0 none) =
      some (some "Section: 101\\nInstructor: Smith".toList) ∧
    ¬ ((create_ics_from_excel_df [secInsRow]).map
        (fun p => p.1.map (fun e => e.description))).map (fun l => l.getD 0 none) =
      some (some "Section: 101\nInstructor: Smith".toList) := by
  constructor
  · decide
  · decide

/-- C4 (amended): for every generated event, the description equals the
non-blank subset of the Section, Instructor and Format lines joined in
that fixed order with the literal two-character backslash-n sequence
(not a newline character), and when all three fields are blank the
description field is omitted entirely rather than set to an empty
string. -/
theorem c4_description_formation (cl sec ins fmt : Str) (sch : Schedule)
    (ev : EventOccurrence) (h : ev ∈ expand_schedule cl sec ins fmt sch) :
    ev.description =
      (if sec = [] ∧ ins = [] ∧ fmt = [] then none
       else some (intercalateL "\\n".toList
         ((if sec = [] then [] else ["Section: ".toList ++ sec]) ++
          (if ins = [] then [] else ["Instructor: ".toList ++ ins]) ++
          (if fmt = [] then [] else ["Format: ".toList ++ fmt])))) := by
  obtain ⟨d, -, -, -, rfl⟩ := mem_expand_schedule cl sec ins fmt sch ev h
  show mkDescription sec ins fmt = _
  unfold mkDescription
  by_cases hs : sec = [] <;> by_cases hi : ins = [] <;> by_cases hf : fmt = [] <;>
    simp [hs, hi, hf]

set_option maxRecDepth 100000 in
/-- C4 witness: the description formation at a concrete occurrence with
a non-blank section and instructor and a blank format. -/
theorem c4_witness :
    mkEvent "CPSC 110".toList "101".toList "Smith".toList [] dmpSchedule
        (toOrdinal 2025 11 17) ∈
      expand_schedule "CPSC 110".toList "101".toList "Smith".toList [] dmpSchedule ∧
    (mkEvent "CPSC 110".toList "101".toList "Smith".toList [] dmpSchedule
        (toOrdinal 2025 11 17)).description =
      some "Section: 101\\nInstructor: Smith".toList := by
  refine ⟨by decide, ?_⟩
  have h := c4_description_formation "CPSC 110".toList "101".toList "Smith".toList
    [] dmpSchedule
    (mkEvent "CPSC 110".toList "101".toList "Smith".toList [] dmpSchedule
      (toOrdinal 2025 11 17)) (by decide)
  rw [h]
  decide

/-- Modelled from the spec, for refinement comparison only (section 4.1
step 7): the location formed by joining the building field and the
remaining detail fields with the field separator and then appending the
campus field, with the comma and blank artifacts stripped. -/
def locationSpecJoin (building : Str) (details : List Str) (campus : Str) : Str :=
  stripCommaSpace
    (intercalateL " | ".toList (building :: details) ++ ", ".toList ++ campus)

set_option maxRecDepth 100000 in
/-- C5 counterexample: the location string the parser builds for the
concrete scenario block separates the building from the first detail
field with a comma and blank, not with the field separator, so it
differs from the spec-modelled join of building and details. -/
theorem c5_location_not_spec_join :
    (parse_meeting_pattern (some dmpBlock)).map (fun s => s.location) =
      ["Hugh Dempster Pavilion (DMP), Floor: 1 | Room: 110, UBCV".toList] ∧
    ¬ (parse_meeting_pattern (some dmpBlock)).map (fun s => s.location) =
      [locationSpecJoin "Hugh Dempster Pavilion (DMP)".toList
        ["Floor: 1".toList, "Room: 110".toList] "UBCV".toList] := by
  constructor
  · decide
  · decide

/-- C5 (amended): for every block the parser accepts, the location of
the resulting Schedule is the stripped building field, a comma and
blank, the raw remaining fields after the fifth joined with the field
separator, a comma and blank, and the stripped campus field, with
leading and trailing comma and blank characters stripped from the
whole. -/
theorem c5_location_formation (b : Str) (sch : Schedule)
    (h : parse_block b = [sch]) :
    sch.location = stripCommaSpace
      (stripWs ((fieldsOf b).getD 4 []) ++ ", ".toList ++
       intercalateL " | ".toList ((fieldsOf b).drop 5) ++ ", ".toList ++
       stripWs ((fieldsOf b).getD 3 [])) := by
  unfold parse_block at h
  split at h
  · exact absurd h (by simp)
  · split at h
    · split at h
      · exact absurd h (by simp)
      · split at h
        · exact absurd h (by simp)
        · split at h
          · exact absurd h (by simp)
          · rw [List.cons.injEq] at h
            rw [← h.1]
    · exact absurd h (by simp)

set_option maxRecDepth 100000 in
/-- C5 witness: the location formation at the concrete scenario block. -/
theorem c5_witness :
    parse_block dmpBlock = [(parse_block dmpBlock).getD 0 schDefault] ∧
    ((parse_block dmpBlock).getD 0 schDefault).location = stripCommaSpace
      (stripWs ((fieldsOf dmpBlock).getD 4 []) ++ ", ".toList ++
       intercalateL " | ".toList ((fieldsOf dmpBlock).drop 5) ++ ", ".toList ++
       stripWs ((fieldsOf dmpBlock).getD 3 [])) :=
  ⟨by decide, c5_location_formation dmpBlock
    ((parse_block dmpBlock).getD 0 schDefault) (by decide)⟩

/-- C6: block isolation.  For any pattern text splitting into exactly
two blocks on the double line break, if the date range of the second
block fails to parse then the parser returns exactly the schedules of
the first block; the discarded second block does not affect its
sibling. -/
theorem c6_block_isolation (t b1 b2 : Str)
    (hsplit : splitOnL "\n\n".toList t = [b1, b2])
    (hbad : parseDateRange (stripWs ((fieldsOf b2).getD 0 [])) = none) :
    parse_meeting_pattern (some t) = parse_block b1 := by
  have ht : ¬ t = [] := by
    intro h
    subst h
    simp [splitOnL, splitOnAuxL] at hsplit
  rw [show parse_meeting_pattern (some t) =
        if t = [] then [] else (splitOnL "\n\n".toList t).flatMap parse_block
      from rfl]
  rw [if_neg ht, hsplit, List.flatMap_cons, List.flatMap_cons, List.flatMap_nil,
    parse_block_eq_nil_dr b2 hbad, List.append_nil, List.append_nil]

/-- A second block whose date range holds an invalid month. -/
def badDateBlock : Str :=
  "2025-13-01 - 2025-12-17 | Mon | 9:30 a.m. - 11:00 a.m. | UBCV | B | F".toList

/-- A two-block pattern text: the well-formed concrete scenario block
followed by the block with the malformed date range. -/
def twoBlockText : Str := dmpBlock ++ "\n\n".toList ++ badDateBlock

set_option maxRecDepth 100000 in
/-- C6 witness: block isolation at the concrete two-block text. -/
theorem c6_witness :
    splitOnL "\n\n".toList twoBlockText = [dmpBlock, badDateBlock] ∧
    parseDateRange (stripWs ((fieldsOf badDateBlock).getD 0 [])) = none ∧
    parse_meeting_pattern (some twoBlockText) = parse_block dmpBlock :=
  ⟨by decide, by decide,
    c6_block_isolation twoBlockText dmpBlock badDateBlock (by decide) (by decide)⟩

set_option maxRecDepth 100000 in
/-- C7: the four textual period-marker variants normalize to the
canonical AM and PM markers, and the three token spellings of half past
nine in the morning all parse to the same time of day. -/
theorem c7_time_normalization :
    normalize_time_string "a.m.".toList = "AM".toList ∧
    normalize_time_string "p.m.".toList = "PM".toList ∧
    normalize_time_string "a.m".toList = "AM".toList ∧
    normalize_time_string "p.m".toList = "PM".toList ∧
    parseTime12 (normalize_time_string (stripWs "9:30 a.m.".toList)) = some (9, 30) ∧
    parseTime12 (normalize_time_string (stripWs "9:30 a.m".toList)) = some (9, 30) ∧
    parseTime12 (normalize_time_string (stripWs "9:30 AM".toList)) = some (9, 30) := by
  refine ⟨by decide, by decide, by decide, by decide, by decide, by decide, by decide⟩

/-- C8: the parser is total and never signals an error.  Its codomain is
a plain list of schedules, so by construction it returns for every
input; this theorem records the exclusion behavior on the malformed
inputs the contract names: an absent or not-a-number cell, the empty
string, whitespace-only text, the literal nan marker, blocks with fewer
than six fields, and blocks with malformed date or time tokens all
contribute zero schedules. -/
theorem c8_parser_total :
    parse_meeting_pattern none = [] ∧
    parse_meeting_pattern (some []) = [] ∧
    parse_meeting_pattern (some "nan".toList) = [] ∧
    (∀ s : Str, (∀ b ∈ splitOnL "\n\n".toList s, stripWs b = []) →
      parse_meeting_pattern (some s) = []) ∧
    (∀ b : Str, (fieldsOf b).length < 6 → parse_block b = []) ∧
    (∀ b : Str, parseDateRange (stripWs ((fieldsOf b).getD 0 [])) = none →
      parse_block b = []) ∧
    (∀ b : Str, parseTimeRange (stripWs ((fieldsOf b).getD 2 [])) = none →
      parse_block b = []) := by
  refine ⟨rfl, rfl, by decide, ?_, parse_block_eq_nil_short,
    parse_block_eq_nil_dr, parse_block_eq_nil_tr⟩
  intro s hs
  rw [show parse_meeting_pattern (some s) =
        if s = [] then [] else (splitOnL "\n\n".toList s).flatMap parse_block
      from rfl]
  by_cases h0 : s = ([] : Str)
  · rw [if_pos h0]
  · rw [if_neg h0]
    exact flatMap_parse_block_eq_nil _
      (fun b hb => parse_block_eq_nil_blank b (hs b hb))

/-- C8 witness: whitespace-only text between block delimiters yields no
schedules. -/
theorem c8_witness :
    parse_meeting_pattern (some "  \n\n\t ".toList) = [] :=
  c8_parser_total.2.2.2.1 "  \n\n\t ".toList (by decide)

/-- C9: for every days field, the weekday list the parser builds is
strictly ascending (hence duplicate-free) and every entry is an index
below 7, because the seven abbreviations are scanned in the fixed
Mon..Sun order regardless of where they occur in the field. -/
theorem c9_weekdays_sorted_nodup_bounded (days : Str) :
    List.Pairwise (· < ·) (weekdaysOf days) ∧ (weekdaysOf days).Nodup ∧
      ∀ x ∈ weekdaysOf days, x < 7 := by
  have hsub : List.Sublist (weekdaysOf days) (day_names.map (fun p => p.2)) :=
    List.Sublist.map _ (List.filter_sublist _)
  have hp : List.Pairwise (· < ·) (day_names.map (fun p => p.2)) := by decide
  have h1 : List.Pairwise (· < ·) (weekdaysOf days) := hp.sublist hsub
  refine ⟨h1, h1.imp (fun h => Nat.ne_of_lt h), fun x hx => ?_⟩
  have hmem : x ∈ day_names.map (fun p => p.2) := hsub.subset hx
  simp [day_names] at hmem
  omega

/-- C9 witness: the weekday list of a days field written out of order is
still emitted in ascending index order. -/
theorem c9_witness :
    weekdaysOf "Wed Mon".toList = [0, 2] ∧ (0 : Nat) < 7 :=
  ⟨by decide, (c9_weekdays_sorted_nodup_bounded "Wed Mon".toList).2.2 0 (by decide)⟩

/-- Strict order on wall-clock (hour, minute) times of day. -/
abbrev timeLt (a b : Nat × Nat) : Prop :=
  a.1 < b.1 ∨ (a.1 = b.1 ∧ a.2 < b.2)

/-- Strict order on wall-clock (day ordinal, hour, minute) stamps in the
single fixed zone of the system. -/
abbrev stampLt (a b : Nat × Nat × Nat) : Prop :=
  a.1 < b.1 ∨ (a.1 = b.1 ∧ timeLt a.2 b.2)

/-- C10: every generated event combines one and the same occurrence date
with the start time and the end time of its schedule, so start and end
fall on the same calendar date and no event spans midnight; in
particular the end stamp precedes the start stamp exactly when the end
time of the schedule is earlier than its start time. -/
theorem c10_same_day_timestamps (cl sec ins fmt : Str) (sch : Schedule)
    (ev : EventOccurrence) (h : ev ∈ expand_schedule cl sec ins fmt sch) :
    ev.dtstart.1 = ev.dtend.1 ∧ ev.dtstart.2 = sch.start_time ∧
      ev.dtend.2 = sch.end_time ∧
      (stampLt ev.dtend ev.dtstart ↔ timeLt sch.end_time sch.start_time) := by
  obtain ⟨d, -, -, -, rfl⟩ := mem_expand_schedule cl sec ins fmt sch ev h
  refine ⟨rfl, rfl, rfl, ?_⟩
  simp [mkEvent, stampLt, timeLt]

/-- A schedule whose end time is earlier than its start time. -/
def lateSchedule : Schedule :=
  ⟨toOrdinal 2025 11 17, toOrdinal 2025 11 17, (11, 0), (9, 30), [0], []⟩

set_option maxRecDepth 100000 in
/-- C10 witness: the same-day property at a concrete occurrence of a
schedule whose end time precedes its start time. -/
theorem c10_witness :
    mkEvent [] [] [] [] lateSchedule (toOrdinal 2025 11 17) ∈
        expand_schedule [] [] [] [] lateSchedule ∧
      ((mkEvent [] [] [] [] lateSchedule (toOrdinal 2025 11 17)).dtstart.1 =
          (mkEvent [] [] [] [] lateSchedule (toOrdinal 2025 11 17)).dtend.1 ∧
        (mkEvent [] [] [] [] lateSchedule (toOrdinal 2025 11 17)).dtstart.2 =
          lateSchedule.start_time ∧
        (mkEvent [] [] [] [] lateSchedule (toOrdinal 2025 11 17)).dtend.2 =
          lateSchedule.end_time ∧
        (stampLt (mkEvent [] [] [] [] lateSchedule (toOrdinal 2025 11 17)).dtend
            (mkEvent [] [] [] [] lateSchedule (toOrdinal 2025 11 17)).dtstart ↔
          timeLt lateSchedule.end_time lateSchedule.start_time)) :=
  ⟨by decide, c10_same_day_timestamps [] [] [] [] lateSchedule
    (mkEvent [] [] [] [] lateSchedule (toOrdinal 2025 11 17)) (by decide)⟩
